import Mathlib

/-!
Verification of the water-management ingestion/analytics engine.

Shallow embedding of `src/parsers.py`, `src/analytics.py` and
`src/src/alerts.py`.  Conventions:

* pandas/python floats are modelled as `ℚ`; a possibly-NaN (or null) float
  is `Option ℚ` with `none` standing for NaN/None — every ordered
  comparison against `none` is `false`, exactly as IEEE comparisons
  against NaN (and as pandas `>=`/`<=` on NaN cells) evaluate to False.
* tz-aware timestamps are modelled as `Int` minutes of local
  (Asia/Kolkata) time; `.dt.date` is floor-division by 1440 (the zone has
  a fixed offset and no DST transitions in the data's era).
* the library parsing routines `pd.to_datetime` + `tz_localize`
  (`parseTs`), `pd.to_numeric(errors="coerce")` (`toNum`) and Python's
  `float()` (`pyFloat`) are opaque parameters of the embedding: `none`
  means NaT / NaN / an exception.  Everything the claims quantify over
  happens after (or independently of) those library calls.
* a `pd.DataFrame` of raw CSV text (post `read_csv(dtype=str).fillna("")`)
  is a `RawTable`: a column count plus rows of string cells; `read_csv`
  pads short rows, so cell access defaults to `""`.
-/

namespace WMS

/-! ## Python-level string helpers -/

/-- Python's whitespace class for `str.strip` and the regex `\s`
(space, tab, newline, carriage return, form feed, vertical tab). -/
def pyIsSpace (c : Char) : Bool :=
  c = ' ' || c = '\t' || c = '\n' || c = '\r' || c = '\x0c' || c = '\x0b'

/-- `str.strip()` on a character list. -/
def stripChars (l : List Char) : List Char :=
  ((l.dropWhile pyIsSpace).reverse.dropWhile pyIsSpace).reverse

/-- Python `str.strip()`. -/
def pyStrip (s : String) : String := String.mk (stripChars s.toList)

/-- Python `str.lower()` (ASCII, which is all the source compares). -/
def pyLower (s : String) : String := String.mk (s.toList.map Char.toLower)

/-- `str.replace(",", "")`: drop every comma (thousands separators). -/
def stripCommas (s : String) : String :=
  String.mk (s.toList.filter (fun c => c ≠ ','))

/-- Does `pat` occur at the head of `text`? -/
def leadsWith : List Char → List Char → Bool
  | [], _ => true
  | _ :: _, [] => false
  | p :: ps, c :: cs => p = c && leadsWith ps cs

/-- Python `sub in s` (substring containment). -/
def containsSub (pat : List Char) : List Char → Bool
  | [] => leadsWith pat []
  | c :: cs => leadsWith pat (c :: cs) || containsSub pat cs

/-- Index of the first occurrence of (nonempty) `pat` in `text`. -/
def findSub (pat : List Char) : List Char → Option Nat
  | [] => if leadsWith pat [] then some 0 else none
  | c :: cs =>
    if leadsWith pat (c :: cs) then some 0
    else (findSub pat cs).map (· + 1)

theorem leadsWith_length {pat s : List Char} (h : leadsWith pat s = true) :
    pat.length ≤ s.length := by
  induction pat generalizing s with
  | nil => exact Nat.zero_le _
  | cons p ps ih =>
    cases s with
    | nil => simp [leadsWith] at h
    | cons c cs =>
      simp only [leadsWith, Bool.and_eq_true] at h
      simpa [List.length_cons] using ih h.2

theorem findSub_bound {pat s : List Char} {i : Nat} (hp : pat ≠ [])
    (h : findSub pat s = some i) : i + pat.length ≤ s.length := by
  induction s generalizing i with
  | nil =>
    cases pat with
    | nil => exact absurd rfl hp
    | cons p ps => simp [findSub, leadsWith] at h
  | cons c cs ih =>
    simp only [findSub] at h
    split at h
    · rename_i hl
      cases h
      simpa using leadsWith_length hl
    · cases hopt : findSub pat cs with
      | none => rw [hopt] at h; simp at h
      | some j =>
        rw [hopt] at h
        simp only [Option.map_some'] at h
        cases h
        have := ih hopt
        simp only [List.length_cons]
        omega

/-- Fuel-driven worker for `splitOnSub`.  Each step on a nonempty separator
consumes at least one character, so fuel = input length always suffices
(once the text is exhausted `findSub` returns `none` and we stop). -/
def splitOnSubAux (pat : List Char) : Nat → List Char → List (List Char)
  | 0, s => [s]
  | fuel + 1, s =>
    match findSub pat s with
    | none => [s]
    | some i => s.take i :: splitOnSubAux pat fuel (s.drop (i + pat.length))

/-- Python `str.split(sep)` for a nonempty literal separator: split on each
non-overlapping occurrence, left to right. -/
def splitOnSub (pat : List Char) (s : List Char) : List (List Char) :=
  splitOnSubAux pat s.length s

/-! ## Value domain: possibly-NaN floats -/

/-- `a <= b` on possibly-NaN floats: `false` whenever either side is NaN,
as in IEEE / pandas elementwise comparison. -/
def nfLe (a b : Option ℚ) : Bool :=
  match a, b with
  | some x, some y => decide (x ≤ y)
  | _, _ => false

/-- NaN-skipping mean (pandas `.mean()`): `none` when no non-NaN value. -/
def meanOpt (l : List (Option ℚ)) : Option ℚ :=
  let vals := l.filterMap id
  if vals.length = 0 then none else some (vals.sum / vals.length)

/-- NaN-skipping minimum (pandas `.min()`). -/
def minOpt (l : List (Option ℚ)) : Option ℚ :=
  match l.filterMap id with
  | [] => none
  | v :: vs => some (vs.foldl min v)

/-- NaN-skipping maximum (pandas `.max()`). -/
def maxOpt (l : List (Option ℚ)) : Option ℚ :=
  match l.filterMap id with
  | [] => none
  | v :: vs => some (vs.foldl max v)

/-! ## Generic table helpers -/

/-- Worker for `dedupByKey`: `seen` is the set of keys already emitted. -/
def dedupByKeyAux {α β : Type} [DecidableEq β] (key : α → β) (seen : List β) :
    List α → List α
  | [] => []
  | a :: as =>
    if key a ∈ seen then dedupByKeyAux key seen as
    else a :: dedupByKeyAux key (key a :: seen) as

/-- `drop_duplicates(subset=[key])`: keep the first occurrence of each key,
preserving the order of the kept rows. -/
def dedupByKey {α β : Type} [DecidableEq β] (key : α → β) (l : List α) : List α :=
  dedupByKeyAux key [] l

/-- Worker for `runsBy`: `cur` is the current run, reversed, and `k` its key. -/
def runsByAux {α β : Type} [DecidableEq β] (key : α → β) (cur : List α) (k : β) :
    List α → List (List α)
  | [] => [cur.reverse]
  | a :: as =>
    if key a = k then runsByAux key (a :: cur) k as
    else cur.reverse :: runsByAux key [a] (key a) as

/-- Maximal contiguous runs of equal `key` (the `(x != x.shift()).cumsum()`
grouping idiom: a new run starts exactly when the key differs from the
immediately preceding row's — which, for an equality key, chunks the list
into maximal runs of constant key). -/
def runsBy {α β : Type} [DecidableEq β] (key : α → β) : List α → List (List α)
  | [] => []
  | a :: as => runsByAux key [a] (key a) as

/-! ## Sorting

`sort_values` is modelled by `List.insertionSort` (a deterministic stable
sort; `drop_duplicates` runs before every sort over a key with possible
ties, or the downstream use is order-insensitive, so any sort of the same
multiset agrees where it matters).  Named relations with `IsTotal`/`IsTrans`
instances feed Mathlib's sortedness lemmas. -/

/-- Order on (timestamp, totalizer) pairs by timestamp. -/
def tsPairLe (a b : Int × ℚ) : Prop := a.1 ≤ b.1

instance : DecidableRel tsPairLe := fun a b => inferInstanceAs (Decidable (a.1 ≤ b.1))

instance : IsTotal (Int × ℚ) tsPairLe := ⟨fun a b => Int.le_total a.1 b.1⟩

instance : IsTrans (Int × ℚ) tsPairLe := ⟨fun _ _ _ => Int.le_trans⟩

/-! ## Raw input tables

`pd.read_csv(path, dtype=str).fillna("")`: a rectangular frame whose
column count comes from the file's widest parsed row; missing cells are
`""`.  `iloc[:, k]` demands `k < width` and raises `IndexError` otherwise.
-/

structure RawTable where
  width : Nat
  rows : List (List String)
deriving DecidableEq, Repr

/-- Cell access on a padded row (`read_csv` pads short rows with `""`). -/
def cellAt (r : List String) (i : Nat) : String := r.getD i ""

/-! ## Flow parser (`src/parsers.py`, `load_flow_csv`) -/

structure FlowReading where
  timestamp : Int
  totalizer : ℚ
  consumption : ℚ
deriving DecidableEq, Repr

instance : Inhabited FlowReading := ⟨⟨0, 0, 0⟩⟩

/-- Header-row test: first three cells case-insensitively equal `"date"`,
`"time"`, and contain `"totalizer"`. -/
def flowIsHeader (r : List String) : Bool :=
  pyLower (pyStrip (cellAt r 0)) = "date" &&
  pyLower (pyStrip (cellAt r 1)) = "time" &&
  containsSub "totalizer".toList (pyLower (pyStrip (cellAt r 2))).toList

/-- Indices of the header rows (`raw[is_header].index`). -/
def headerIdxs (rows : List (List String)) : List Nat :=
  (List.range rows.length).filter (fun i => flowIsHeader (rows.getD i []))

/-- `rows[s:e]` slice. -/
def sliceRows (rows : List (List String)) (s e : Nat) : List (List String) :=
  (rows.drop s).take (e - s)

/-- One block: keep rows whose first three cells are nonempty after
trimming, parse `"date time"` (stripped, space-joined) through
`to_datetime`+`tz_localize` (= `parseTs`), parse the comma-stripped
totalizer cell through `to_numeric` (= `toNum`), drop parse failures
(`dropna`), and sort the block by timestamp (stable). -/
def parseBlock (parseTs : String → Option Int) (toNum : String → Option ℚ)
    (block : List (List String)) : List (Int × ℚ) :=
  let kept := block.filter (fun r =>
    pyStrip (cellAt r 0) ≠ "" && pyStrip (cellAt r 1) ≠ "" &&
    pyStrip (cellAt r 2) ≠ "")
  let parsed := kept.filterMap (fun r =>
    match parseTs (pyStrip (cellAt r 0) ++ " " ++ pyStrip (cellAt r 1)),
          toNum (stripCommas (cellAt r 2)) with
    | some ts, some tot => some (ts, tot)
    | _, _ => none)
  parsed.insertionSort tsPairLe

/-- `consumption` for every row after the first: clamped first difference
of `totalizer` (`diff`, then negatives set to `0.0`). -/
def consFrom (prev : ℚ) : List (Int × ℚ) → List FlowReading
  | [] => []
  | (t, v) :: rest => ⟨t, v, max (v - prev) 0⟩ :: consFrom v rest

/-- Attach the derived `consumption` column: the first row's `diff` is NaN
and is filled with `0.0`; later rows get the clamped difference. -/
def withConsumption : List (Int × ℚ) → List FlowReading
  | [] => []
  | (t, v) :: rest => ⟨t, v, 0⟩ :: consFrom v rest

/-- The data blocks: the rows strictly between one header row and the
next (or end of file), skipping empty spans. -/
def flowSlices (t : RawTable) : List (List (List String)) :=
  let hs := headerIdxs t.rows
  let ends := hs.drop 1 ++ [t.rows.length]
  (hs.zip ends).filterMap (fun p =>
    if p.1 + 1 < p.2 then some (sliceRows t.rows (p.1 + 1) p.2) else none)

/-- Concatenate the parsed blocks, deduplicate by exact timestamp (first
occurrence wins), and sort ascending by timestamp. -/
def flowSortedPairs (parseTs : String → Option Int) (toNum : String → Option ℚ)
    (t : RawTable) : List (Int × ℚ) :=
  let all := ((flowSlices t).map (parseBlock parseTs toNum)).flatten
  (dedupByKey (fun x => x.1) all).insertionSort tsPairLe

/-- `load_flow_csv`.  Raises (`Except.error`) iff the frame has fewer than
three columns (`raw.iloc[:, 2]` is out of bounds).  Otherwise: split into
blocks after each header row, parse each block, concatenate, deduplicate
by timestamp (first occurrence wins), sort by timestamp, and derive
`consumption`. -/
def loadFlowCsv (parseTs : String → Option Int) (toNum : String → Option ℚ)
    (t : RawTable) : Except String (List FlowReading) :=
  if t.width < 3 then
    .error "IndexError: single positional indexer is out-of-bounds"
  else if (flowSlices t).isEmpty then .ok []
  else .ok (withConsumption (flowSortedPairs parseTs toNum t))

/-! ## Quality parser (`src/parsers.py`, `load_quality_csv`)

`PARAM_RE = r"^\s*\d+\.\s*(.+?)\s*,\s*Safe Range:\s*\(([^)]+)\)\s*$"`,
case-insensitive, matched with `re.match`.  The matcher below follows the
engine's backtracking order exactly: each `\s*`/`\d+` is greedy (and is
deterministic wherever the following token cannot be whitespace/a digit),
the group `(.+?)` is lazy (shortest first) with `.` excluding newline, and
the one genuine backtrack point — the `\s*` before the lazy group — is
retried longest-first. -/

/-- Case-insensitive character comparison (ASCII, as in the source data). -/
def chEqCI (a b : Char) : Bool := a.toLower = b.toLower

/-- Match a case-insensitive literal; return the rest of the text. -/
def litCI : List Char → List Char → Option (List Char)
  | [], s => some s
  | _ :: _, [] => none
  | l :: ls, c :: cs => if chEqCI l c then litCI ls cs else none

/-- Greedy `\s*`. -/
def dropSpaces (s : List Char) : List Char := s.dropWhile pyIsSpace

/-- `([^)]+)\)\s*$` — capture group 2. -/
def matchTailParen (s : List Char) : Option (List Char) :=
  let g2 := s.takeWhile (fun c => c ≠ ')')
  let rest := s.drop g2.length
  if g2.isEmpty then none
  else
    match rest with
    | ')' :: r2 => if dropSpaces r2 = [] then some g2 else none
    | _ => none

/-- `\s*,\s*Safe Range:\s*\(` followed by the tail, after group 1. -/
def matchAfterG1 (s : List Char) : Option (List Char) :=
  match dropSpaces s with
  | ',' :: r1 =>
    match litCI "safe range:".toList (dropSpaces r1) with
    | some r2 =>
      match dropSpaces r2 with
      | '(' :: r3 => matchTailParen r3
      | _ => none
    | none => none
  | _ => none

/-- Lazy `(.+?)`: extend group 1 one character at a time (never `'\n'`),
trying the remainder of the pattern after every extension. -/
def tryG1 (acc : List Char) : List Char → Option (List Char × List Char)
  | [] => none
  | c :: rest =>
    if c = '\n' then none
    else
      match matchAfterG1 rest with
      | some g2 => some ((c :: acc).reverse, g2)
      | none => tryG1 (c :: acc) rest

/-- Backtrack the `\s*` before group 1: try taking `w` leading whitespace
characters, longest first. -/
def tryWsThenG1 : Nat → List Char → Option (List Char × List Char)
  | 0, s => tryG1 [] s
  | w + 1, s =>
    match tryG1 [] (s.drop (w + 1)) with
    | some r => some r
    | none => tryWsThenG1 w s

/-- `PARAM_RE.match(s)`: on success, the two capture groups. -/
def paramReMatch (s : String) : Option (String × String) :=
  let cs := s.toList
  let afterWs := dropSpaces cs
  let digits := afterWs.takeWhile (fun c => c.isDigit)
  if digits.isEmpty then none
  else
    match afterWs.drop digits.length with
    | '.' :: rest =>
      let wmax := (rest.takeWhile pyIsSpace).length
      match tryWsThenG1 wmax rest with
      | some (g1, g2) => some (String.mk g1, String.mk g2)
      | none => none
    | _ => none

/-- `_parse_safe_range`: split on the literal substring `"to"`; exactly two
parts, each parsed by Python `float()` (= `pyFloat`, `none` meaning an
exception); any failure yields `(None, None)`. -/
def parseSafeRange (pyFloat : String → Option ℚ) (text : String) :
    Option ℚ × Option ℚ :=
  let parts := splitOnSub "to".toList text.toList
  if parts.length ≠ 2 then (none, none)
  else
    match pyFloat (pyStrip (String.mk (parts.getD 0 []))),
          pyFloat (pyStrip (String.mk (parts.getD 1 []))) with
    | some a, some b => (some a, some b)
    | _, _ => (none, none)

structure QualityReading where
  timestamp : Int
  parameter : String
  value : Option ℚ
  safeMin : Option ℚ
  safeMax : Option ℚ
deriving DecidableEq, Repr

instance : Inhabited QualityReading := ⟨⟨0, "", none, none, none⟩⟩

/-- A scan output row before the final `dropna(subset=["timestamp"])`:
`tsOpt` is the `tz_localize` result (`none` = NaT from an ambiguous local
time; rows whose *naive* parse failed were never appended at all). -/
structure QualOutRow where
  tsOpt : Option Int
  parameter : String
  value : Option ℚ
  safeMin : Option ℚ
  safeMax : Option ℚ
deriving DecidableEq, Repr

/-- Scanner state: `current_param` (with Python truthiness — the empty
string is falsy), the captured safe range, and the `in_table` flag. -/
structure QState where
  currentParam : Option String
  safeMin : Option ℚ
  safeMax : Option ℚ
  inTable : Bool
deriving DecidableEq, Repr

/-- Python truthiness of `current_param`. -/
def truthyParam : Option String → Bool
  | some s => s ≠ ""
  | none => false

/-- `cells`: the row's stripped, nonempty cells in order. -/
def cellsOf (r : List String) : List String :=
  (r.map pyStrip).filter (fun c => c ≠ "")

/-- One iteration of the row loop of `load_quality_csv`. -/
def qualStep (pyFloat : String → Option ℚ) (parseNaive : String → Option Int)
    (localize : Int → Option Int) (toNum : String → Option ℚ)
    (st : QState) (r : List String) : QState × List QualOutRow :=
  let cells := cellsOf r
  if cells.isEmpty then (st, [])
  else
    match paramReMatch (cells.getD 0 "") with
    | some (g1, g2) =>
      let p := pyStrip g1
      let mm := parseSafeRange pyFloat (pyStrip g2)
      (⟨some p, mm.1, mm.2, false⟩, [])
    | none =>
      if truthyParam st.currentParam && decide (3 ≤ cells.length) &&
          pyLower (cells.getD 0 "") = "date" &&
          pyLower (cells.getD 1 "") = "time" then
        ({ st with inTable := true }, [])
      else if st.inTable && truthyParam st.currentParam then
        if cells.length < 3 then (st, [])
        else
          match parseNaive (cells.getD 0 "" ++ " " ++ cells.getD 1 "") with
          | none => (st, [])
          | some ts =>
            (st, [⟨localize ts, st.currentParam.getD "",
                   toNum (stripCommas (cells.getD 2 "")),
                   st.safeMin, st.safeMax⟩])
      else (st, [])

/-- The full row scan, threading the state. -/
def qualScan (pyFloat : String → Option ℚ) (parseNaive : String → Option Int)
    (localize : Int → Option Int) (toNum : String → Option ℚ)
    (st : QState) : List (List String) → List QualOutRow
  | [] => []
  | r :: rs =>
    let so := qualStep pyFloat parseNaive localize toNum st r
    so.2 ++ qualScan pyFloat parseNaive localize toNum so.1 rs

/-- Python string `<`: lexicographic comparison of code points. -/
def strLtB : List Char → List Char → Bool
  | [], [] => false
  | [], _ :: _ => true
  | _ :: _, [] => false
  | a :: as, b :: bs =>
    if a < b then true else if b < a then false else strLtB as bs

/-- Sort order of the quality output: by `parameter`, then `timestamp`. -/
def qualLe (a b : QualityReading) : Prop :=
  strLtB a.parameter.toList b.parameter.toList = true ∨
    (a.parameter = b.parameter ∧ a.timestamp ≤ b.timestamp)

instance : DecidableRel qualLe := fun a b => by
  unfold qualLe
  exact inferInstanceAs (Decidable (_ ∨ _))

/-- `load_quality_csv`: scan the rows (initial state: no parameter, null
bounds, not in a table), drop rows whose localized timestamp is NaT, and
sort by (parameter, timestamp). -/
def loadQualityCsv (pyFloat : String → Option ℚ) (parseNaive : String → Option Int)
    (localize : Int → Option Int) (toNum : String → Option ℚ)
    (rows : List (List String)) : List QualityReading :=
  let out := qualScan pyFloat parseNaive localize toNum ⟨none, none, none, false⟩ rows
  let kept := out.filterMap (fun o =>
    o.tsOpt.map (fun t => QualityReading.mk t o.parameter o.value o.safeMin o.safeMax))
  kept.insertionSort qualLe

/-! ## Analytics (`src/analytics.py`) -/

/-- `timestamp.dt.date` in the fixed-offset local zone, as a day index. -/
def dateOf (ts : Int) : Int := Int.fdiv ts 1440

/-- `(q["value"] >= q["safe_min"]) & (q["value"] <= q["safe_max"])`:
elementwise float comparison, false on NaN/null on either side. -/
def inRangeB (r : QualityReading) : Bool :=
  nfLe r.safeMin r.value && nfLe r.value r.safeMax

/-- Group-key order for `groupby(["parameter","date"])` (tuple order). -/
def qcKeyLe (a b : String × Int) : Prop :=
  strLtB a.1.toList b.1.toList = true ∨ (a.1 = b.1 ∧ a.2 ≤ b.2)

instance : DecidableRel qcKeyLe := fun a b => by
  unfold qcKeyLe
  exact inferInstanceAs (Decidable (_ ∨ _))

structure ComplianceRow where
  parameter : String
  date : Int
  pctInRange : Option ℚ
  breaches : Nat
  readings : Nat
  avgValue : Option ℚ
  minValue : Option ℚ
  maxValue : Option ℚ
deriving DecidableEq, Repr

/-- The rows of one `(parameter, date)` group, in original order. -/
def complianceGroup (q : List QualityReading) (k : String × Int) : List QualityReading :=
  q.filter (fun r => r.parameter = k.1 && dateOf r.timestamp = k.2)

/-- The aggregates of one group: `% in range` (`100 * mean` of the boolean,
NaN on an empty group), breach count (`(~s).sum()`), reading count, and
NaN-skipping mean/min/max of `value`. -/
def complianceRow (q : List QualityReading) (k : String × Int) : ComplianceRow :=
  let g := complianceGroup q k
  { parameter := k.1, date := k.2,
    pctInRange :=
      if g.length = 0 then none
      else some (100 * ((g.countP inRangeB : ℚ)) / g.length),
    breaches := g.countP (fun r => !inRangeB r),
    readings := g.length,
    avgValue := meanOpt (g.map (·.value)),
    minValue := minOpt (g.map (·.value)),
    maxValue := maxOpt (g.map (·.value)) }

/-- `quality_daily_compliance`: group by `(parameter, date)` (groupby sorts
the keys; the trailing `sort_values` is a stable no-op) and aggregate. -/
def qualityDailyCompliance (q : List QualityReading) : List ComplianceRow :=
  let keys := (dedupByKey id
    (q.map (fun r => (r.parameter, dateOf r.timestamp)))).insertionSort qcKeyLe
  keys.map (complianceRow q)

/-! ### Breach events -/

/-- `seg["in_range"].iloc[0] is False`: positional access on a pandas
boolean column yields a `numpy.bool_` scalar, and `is` tests object
identity against Python's interned `False` — a `numpy.bool_` is never that
object, so the test is false regardless of the boolean's value. -/
def npIsPyFalse (_b : Bool) : Bool := false

/-- Round half to even (Python's `round`). -/
def roundHalfEven (x : ℚ) : Int :=
  let f := ⌊x⌋
  if x - f < 1/2 then f
  else if (1:ℚ)/2 < x - f then f + 1
  else if f % 2 = 0 then f else f + 1

/-- `round(x, 2)`. -/
def pyRound2 (x : ℚ) : ℚ := (roundHalfEven (x * 100) : ℚ) / 100

structure BreachEvent where
  parameter : String
  start : Int
  stop : Int          -- source column `end` (a Lean keyword)
  durationMin : ℚ
  minValue : Option ℚ
  maxValue : Option ℚ
  readings : Nat
deriving DecidableEq, Repr

/-- `quality_breach_events`: sort by (parameter, timestamp), group by
parameter (sorted keys, so the dedup of the sorted parameter column), chunk
each group into maximal runs of the in-range boolean, and keep a run iff it
is nonempty and its first boolean `is False` (see `npIsPyFalse`).  The
trailing `sort_values(["parameter","start"])` is a stable no-op on this
construction order. -/
def qualityBreachEvents (q : List QualityReading) : List BreachEvent :=
  let qs := q.insertionSort qualLe
  let params := dedupByKey id (qs.map (·.parameter))
  (params.map (fun p =>
    let g := qs.filter (fun r => r.parameter = p)
    (runsBy inRangeB g).filterMap (fun seg =>
      if !seg.isEmpty && npIsPyFalse (inRangeB (seg.headD default)) then
        some { parameter := p,
               start := (seg.headD default).timestamp,
               stop := (seg.getLastD default).timestamp,
               durationMin := pyRound2
                 (((seg.getLastD default).timestamp - (seg.headD default).timestamp : Int) : ℚ),
               minValue := minOpt (seg.map (·.value)),
               maxValue := maxOpt (seg.map (·.value)),
               readings := seg.length }
      else none))).flatten

/-! ### Daily flow rollup and the humidity correlation -/

structure FlowDailyRow where
  date : Int
  totalConsumption : ℚ
  meanInterval : Option ℚ
  p95Interval : Option ℚ
  readings : Nat
deriving DecidableEq, Repr

/-- `np.nanpercentile(s, 95)` with the default linear interpolation
(consumption contains no NaN): `h = 0.95*(n-1)`, interpolate between the
two bracketing order statistics. -/
def percentile95 (l : List ℚ) : ℚ :=
  let s := l.insertionSort (· ≤ ·)
  let n := s.length
  let h : ℚ := 95 * ((n : ℚ) - 1) / 100
  let i : Nat := (⌊h⌋).toNat
  let lo := s.getD i 0
  let hi := s.getD (i + 1) 0
  lo + (h - (i : ℚ)) * (hi - lo)

/-- A flow DataFrame as consumed by the flow analytics: its rows plus the
dtype of the `timestamp` column.  `tsIsObject = true` models the
schema-only empty frame `pd.DataFrame(columns=["timestamp","totalizer",
"consumption"])` that `load_flow_csv` returns for a headerless file: its
columns are object dtype, and the `.dt` accessor raises `AttributeError`
on them.  Every data-bearing path of the parser yields a datetimelike
`timestamp` column instead (even a frame whose rows were all filtered
away keeps the datetime dtype `to_datetime` gave the empty column), so
`tsIsObject = false` there. -/
structure FlowFrame where
  rows : List FlowReading
  tsIsObject : Bool
deriving DecidableEq, Repr

/-- The aggregation core of `flow_daily`: group by local date (sorted
keys) and aggregate. -/
def flowDailyRows (flow : List FlowReading) : List FlowDailyRow :=
  let keys := (dedupByKey id
    (flow.map (fun r => dateOf r.timestamp))).insertionSort (· ≤ ·)
  keys.map (fun d =>
    let g := flow.filter (fun r => dateOf r.timestamp = d)
    { date := d,
      totalConsumption := (g.map (·.consumption)).sum,
      meanInterval :=
        if g.length = 0 then none else some ((g.map (·.consumption)).sum / g.length),
      p95Interval :=
        if g.length = 0 then none else some (percentile95 (g.map (·.consumption))),
      readings := g.length })

/-- `flow_daily`: `_add_time_parts` evaluates `z["timestamp"].dt.date`
first, which raises `AttributeError` when the `timestamp` column is not
datetimelike (the headerless-file empty frame); otherwise group by local
date and aggregate. -/
def flowDaily (f : FlowFrame) : Except String (List FlowDailyRow) :=
  if f.tsIsObject then
    .error "AttributeError: Can only use .dt accessor with datetimelike values"
  else .ok (flowDailyRows f.rows)

/-- `load_flow_csv` seen at the DataFrame level: same parse as
`loadFlowCsv`, but recording the `timestamp` column's dtype.  Only the
headerless early return produces the object-dtype schema frame. -/
def loadFlowFrame (parseTs : String → Option Int) (toNum : String → Option ℚ)
    (t : RawTable) : Except String FlowFrame :=
  if t.width < 3 then
    .error "IndexError: single positional indexer is out-of-bounds"
  else if (flowSlices t).isEmpty then .ok ⟨[], true⟩
  else .ok ⟨withConsumption (flowSortedPairs parseTs toNum t), false⟩

structure MergedRow where
  date : Int
  totalConsumption : ℚ
  humidity : Option ℚ
deriving DecidableEq, Repr

/-- `humidity_vs_flow_daily`.  `corrFn` stands for pandas
`Series.corr` applied to the two merged columns (`none` = the resulting
float is NaN; the source wraps the value in `float(...)`, so a NaN
correlation and the `None` sentinel are both modelled as `none`).  If no
reading carries the named parameter: empty table and null correlation.
Otherwise inner-join daily total consumption with the parameter's daily
mean (join preserves the left, date-sorted order); the correlation is
computed only when at least 2 joined rows exist and some humidity value is
non-NaN. -/
def humidityRows (quality : List QualityReading) (humidityName : String) :
    List QualityReading :=
  quality.filter (fun r => r.parameter = humidityName)

/-- The named parameter's daily means (date-sorted, NaN-skipping mean). -/
def humidityDailyMeans (quality : List QualityReading) (humidityName : String) :
    List (Int × Option ℚ) :=
  let h := humidityRows quality humidityName
  let hdates := (dedupByKey id
    (h.map (fun r => dateOf r.timestamp))).insertionSort (· ≤ ·)
  hdates.map (fun d =>
    (d, meanOpt ((h.filter (fun r => dateOf r.timestamp = d)).map (·.value))))

/-- The inner join of the daily totals with the daily humidity means, in
the left (flow) date order. -/
def humidityJoined (fd : List FlowDailyRow) (quality : List QualityReading)
    (humidityName : String) : List MergedRow :=
  fd.filterMap (fun f =>
    ((humidityDailyMeans quality humidityName).find? (fun p => decide (p.1 = f.date))).map
      (fun p => MergedRow.mk f.date f.totalConsumption p.2))

/-- `humidity_vs_flow_daily` computes `flow_daily(flow)` *before* its
`h.empty` guard, so a flow frame whose `timestamp` column is not
datetimelike propagates `flow_daily`'s `AttributeError`. -/
def humidityVsFlowDaily (corrFn : List ℚ → List (Option ℚ) → Option ℚ)
    (flow : FlowFrame) (quality : List QualityReading)
    (humidityName : String) : Except String (List MergedRow × Option ℚ) :=
  match flowDaily flow with
  | .error e => .error e
  | .ok fd =>
    if (humidityRows quality humidityName).isEmpty then .ok ([], none)
    else
      let merged := humidityJoined fd quality humidityName
      .ok (merged,
        if 2 ≤ merged.length ∧ merged.any (fun m => m.humidity.isSome) then
          corrFn (merged.map (·.totalConsumption)) (merged.map (·.humidity))
        else none)

/-! ## Anomaly detector (`src/src/alerts.py`, `flow_anomalies`) -/

/-- `min_periods = max(6, window // 4)`. -/
def mpOf (w : Nat) : Nat := max 6 (w / 4)

/-- Order on flow readings by timestamp, for `sort_values("timestamp")`. -/
def flowTsLe (a b : FlowReading) : Prop := a.timestamp ≤ b.timestamp

instance : DecidableRel flowTsLe := fun a b =>
  inferInstanceAs (Decidable (a.timestamp ≤ b.timestamp))

instance : IsTotal FlowReading flowTsLe := ⟨fun a b => Int.le_total a.timestamp b.timestamp⟩

instance : IsTrans FlowReading flowTsLe := ⟨fun _ _ _ => Int.le_trans⟩

/-- pandas median: midpoint of the two middle order statistics. -/
def median (l : List ℚ) : ℚ :=
  let s := l.insertionSort (· ≤ ·)
  let n := s.length
  if n % 2 = 1 then s.getD (n / 2) 0
  else (s.getD (n / 2 - 1) 0 + s.getD (n / 2) 0) / 2

/-- The trailing window of width `w` ending at index `i`. -/
def windowSlice {α : Type} (l : List α) (w i : Nat) : List α :=
  (l.take (i + 1)).drop (i + 1 - w)

/-- `.rolling(w, min_periods=mp).median()` over a possibly-NaN column, at
one index: the median of the non-NaN values in the trailing window,
provided at least `mp` of them exist. -/
def rollMedAtMp (w mp : Nat) (l : List (Option ℚ)) (i : Nat) : Option ℚ :=
  let vals := (windowSlice l w i).filterMap id
  if mp ≤ vals.length then some (median vals) else none

def sortedFlow (flow : List FlowReading) : List FlowReading :=
  flow.insertionSort flowTsLe

def consSeq (flow : List FlowReading) : List ℚ :=
  (sortedFlow flow).map (·.consumption)

/-- `z["consumption"]` at one row. -/
def consAt (flow : List FlowReading) (i : Nat) : ℚ := (consSeq flow).getD i 0

/-- `z["roll_med"]` at one row. -/
def rollMedAt (w : Nat) (flow : List FlowReading) (i : Nat) : Option ℚ :=
  rollMedAtMp w (mpOf w) ((consSeq flow).map some) i

/-- `(z["consumption"] - z["roll_med"]).abs()` at one row (NaN where
`roll_med` is). -/
def devAt (w : Nat) (flow : List FlowReading) (i : Nat) : Option ℚ :=
  (rollMedAt w flow i).map (fun mv => |consAt flow i - mv|)

/-- The absolute-deviation column. -/
def devSeq (w : Nat) (flow : List FlowReading) : List (Option ℚ) :=
  (List.range (consSeq flow).length).map (devAt w flow)

/-- The rolling MAD estimate at one row. -/
def madAt (w : Nat) (flow : List FlowReading) (i : Nat) : Option ℚ :=
  rollMedAtMp w (mpOf w) (devSeq w flow) i

/-- `mad.replace(0, np.nan)` at one row. -/
def madReplAt (w : Nat) (flow : List FlowReading) (i : Nat) : Option ℚ :=
  match madAt w flow i with
  | some x => if x = 0 then none else some x
  | none => none

/-- `threshold = roll_med + 3.0 * mad.replace(0, nan)` (NaN-propagating). -/
def thresholdAt (w : Nat) (flow : List FlowReading) (i : Nat) : Option ℚ :=
  match rollMedAt w flow i, madReplAt w flow i with
  | some a, some b => some (a + 3 * b)
  | _, _ => none

/-- `anomaly = consumption > threshold` (False against NaN). -/
def anomalyAt (w : Nat) (flow : List FlowReading) (i : Nat) : Bool :=
  match thresholdAt w flow i with
  | some tv => decide (tv < consAt flow i)
  | none => false

structure AnomalyRow where
  timestamp : Int
  consumption : ℚ
  rollMed : Option ℚ
  threshold : Option ℚ
  anomaly : Bool
deriving DecidableEq, Repr

/-- `flow_anomalies`: the five retained columns, row by row. -/
def flowAnomalies (w : Nat) (flow : List FlowReading) : List AnomalyRow :=
  (List.range (sortedFlow flow).length).map (fun i =>
    { timestamp := ((sortedFlow flow).getD i default).timestamp,
      consumption := consAt flow i,
      rollMed := rollMedAt w flow i,
      threshold := thresholdAt w flow i,
      anomaly := anomalyAt w flow i })

/-! ## Concrete fixtures

Concrete instantiations of the opaque library-parsing parameters, as
lookup tables on the strings appearing in the fixture files. -/

def demoParseTs (s : String) : Option Int :=
  if s = "01/01/2024 10:00" then some 0
  else if s = "01/01/2024 10:05" then some 5
  else if s = "01/01/2024 10:10" then some 10
  else if s = "01/01/2024 10:15" then some 15
  else none

def demoToNum (s : String) : Option ℚ :=
  if s = "100" then some 100
  else if s = "105" then some 105
  else if s = "103" then some 103
  else if s = "110" then some 110
  else if s = "10" then some 10
  else if s = "25" then some 25
  else if s = "55" then some 55
  else none

def demoPyFloat (s : String) : Option ℚ :=
  if s = "20" then some 20
  else if s = "40" then some 40
  else none

def demoLocalize (t : Int) : Option Int := some t

/-- The spec's totalizer fixture `[100, 105, 103, 110]` at 5-minute
intervals, as a flow file with one header block. -/
def demoFlowTable : RawTable :=
  ⟨3, [["Date", "Time", "Totalizer  (m3)"],
       ["01/01/2024", "10:00", "100"],
       ["01/01/2024", "10:05", "105"],
       ["01/01/2024", "10:10", "103"],
       ["01/01/2024", "10:15", "110"]]⟩

def demoFlowOut : List FlowReading :=
  [⟨0, 100, 0⟩, ⟨5, 105, 5⟩, ⟨10, 103, 0⟩, ⟨15, 110, 7⟩]

theorem demoFlow_sortedPairs :
    flowSortedPairs demoParseTs demoToNum demoFlowTable =
      [(0, 100), (5, 105), (10, 103), (15, 110)] := by decide

theorem demoFlow_ok :
    loadFlowCsv demoParseTs demoToNum demoFlowTable = .ok demoFlowOut := by
  rw [loadFlowCsv]
  norm_num [demoFlow_sortedPairs,
    show (flowSlices demoFlowTable).isEmpty = false from by decide,
    show demoFlowTable.width = 3 from by decide,
    withConsumption, consFrom, demoFlowOut]

/-! ## Helper lemmas -/

theorem dedupByKeyAux_spec {α β : Type} [DecidableEq β] (key : α → β) :
    ∀ (l : List α) (seen : List β),
      (dedupByKeyAux key seen l).Pairwise (fun a b => key a ≠ key b) ∧
      ∀ x ∈ dedupByKeyAux key seen l, key x ∉ seen := by
  intro l
  induction l with
  | nil => intro seen; simp [dedupByKeyAux]
  | cons a as ih =>
    intro seen
    rw [dedupByKeyAux]
    split
    · rename_i hmem
      exact ih seen
    · rename_i hmem
      obtain ⟨hpw, hni⟩ := ih (key a :: seen)
      refine ⟨List.Pairwise.cons ?_ hpw, ?_⟩
      · intro x hx
        have := hni x hx
        simp only [List.mem_cons] at this
        intro hk
        exact this (Or.inl hk.symm)
      · intro x hx
        simp only [List.mem_cons] at hx
        rcases hx with rfl | hx
        · exact hmem
        · have := hni x hx
          simp only [List.mem_cons] at this
          intro hk
          exact this (Or.inr hk)

theorem pairwise_ne_dedupByKey {α β : Type} [DecidableEq β] (key : α → β)
    (l : List α) :
    (dedupByKey key l).Pairwise (fun a b => key a ≠ key b) :=
  (dedupByKeyAux_spec key l []).1

theorem mem_dedupById {β : Type} [DecidableEq β] :
    ∀ (l : List β) (seen : List β) (k : β),
      k ∈ dedupByKeyAux id seen l ↔ k ∈ l ∧ k ∉ seen := by
  intro l
  induction l with
  | nil => intro seen k; simp [dedupByKeyAux]
  | cons a as ih =>
    intro seen k
    rw [dedupByKeyAux]
    split
    · rename_i hmem
      rw [ih]
      simp only [List.mem_cons, id] at *
      constructor
      · rintro ⟨h1, h2⟩; exact ⟨Or.inr h1, h2⟩
      · rintro ⟨h1 | h1, h2⟩
        · subst h1; exact absurd hmem h2
        · exact ⟨h1, h2⟩
    · rename_i hmem
      simp only [List.mem_cons, ih, id] at *
      constructor
      · rintro (rfl | ⟨h1, h2⟩)
        · exact ⟨Or.inl rfl, hmem⟩
        · refine ⟨Or.inr h1, fun hc => h2 (Or.inr hc)⟩
      · rintro ⟨rfl | h1, h2⟩
        · exact Or.inl rfl
        · by_cases hk : k = a
          · exact Or.inl hk
          · exact Or.inr ⟨h1, by simp [hk, h2]⟩

theorem consFrom_map_ts (p : ℚ) :
    ∀ l : List (Int × ℚ), (consFrom p l).map (·.timestamp) = l.map (·.1) := by
  intro l
  induction l generalizing p with
  | nil => rfl
  | cons x rest ih =>
    obtain ⟨t, v⟩ := x
    simp [consFrom, ih]

theorem withConsumption_map_ts (l : List (Int × ℚ)) :
    (withConsumption l).map (·.timestamp) = l.map (·.1) := by
  cases l with
  | nil => rfl
  | cons x rest =>
    obtain ⟨t, v⟩ := x
    simp [withConsumption, consFrom_map_ts]

theorem consFrom_nonneg (p : ℚ) :
    ∀ l : List (Int × ℚ), ∀ r ∈ consFrom p l, 0 ≤ r.consumption := by
  intro l
  induction l generalizing p with
  | nil => simp [consFrom]
  | cons x rest ih =>
    obtain ⟨t, v⟩ := x
    intro r hr
    simp only [consFrom, List.mem_cons] at hr
    rcases hr with rfl | hr
    · exact le_max_right _ _
    · exact ih v r hr

theorem flowSortedPairs_pairwise (parseTs : String → Option Int)
    (toNum : String → Option ℚ) (t : RawTable) :
    (flowSortedPairs parseTs toNum t).Pairwise (fun a b => a.1 < b.1) := by
  unfold flowSortedPairs
  set all := ((flowSlices t).map (parseBlock parseTs toNum)).flatten with hall
  have hsorted : (List.insertionSort tsPairLe (dedupByKey (fun x => x.1) all)).Pairwise tsPairLe :=
    List.sorted_insertionSort tsPairLe _
  have hperm : List.Perm (List.insertionSort tsPairLe (dedupByKey (fun x => x.1) all))
      (dedupByKey (fun x => x.1) all) :=
    List.perm_insertionSort tsPairLe _
  have hne : (List.insertionSort tsPairLe (dedupByKey (fun x => x.1) all)).Pairwise
      (fun a b => a.1 ≠ b.1) :=
    (hperm.pairwise_iff (fun h => Ne.symm h)).mpr (pairwise_ne_dedupByKey _ _)
  have := hsorted.and hne
  exact this.imp (fun h => lt_of_le_of_ne h.1 h.2)

/-! ## Claim C1 -/

/-- C1: the spec says `quality_breach_events` emits one `BreachEvent` per
maximal out-of-range run.  The code's run filter is
`seg["in_range"].iloc[0] is False`, an identity test that a `numpy.bool_`
never passes, so the function returns an empty table on *every* input —
in particular on a series holding a single out-of-range reading
(value 10 against safe range [20, 40]), which the claim says must yield
one zero-duration event. -/
theorem breach_events_always_empty_despite_breach :
    (∀ q : List QualityReading, qualityBreachEvents q = []) ∧
    inRangeB ⟨0, "PH (PH)", some 10, some 20, some 40⟩ = false := by
  constructor
  · intro q
    unfold qualityBreachEvents
    simp only [npIsPyFalse, Bool.and_false, if_false, List.filterMap_nil]
    rw [List.flatten_eq_nil_iff]
    intro l hl
    simp only [List.mem_map] at hl
    obtain ⟨p, _, rfl⟩ := hl
    induction (runsBy inRangeB _) with
    | nil => rfl
    | cons seg segs ihs => simp [List.filterMap, ihs]
  · decide

/-! ## Claim C2 -/

/-- C2: every flow series the parser returns has strictly increasing (hence
unique) timestamps, every consumption is nonnegative, and the first
reading's consumption is exactly 0. -/
theorem flow_series_invariants (parseTs : String → Option Int)
    (toNum : String → Option ℚ) (t : RawTable) (l : List FlowReading)
    (h : loadFlowCsv parseTs toNum t = .ok l) :
    l.Pairwise (fun a b => a.timestamp < b.timestamp) ∧
    (∀ r ∈ l, 0 ≤ r.consumption) ∧
    (∀ r, l.head? = some r → r.consumption = 0) := by
  unfold loadFlowCsv at h
  split at h
  · exact absurd h (by simp)
  · split at h
    · cases h
      exact ⟨List.Pairwise.nil, by simp, by simp⟩
    · cases h
      refine ⟨?_, ?_, ?_⟩
      · have hpw := flowSortedPairs_pairwise parseTs toNum t
        have hmap : (withConsumption (flowSortedPairs parseTs toNum t)).map (·.timestamp) =
            (flowSortedPairs parseTs toNum t).map (·.1) := withConsumption_map_ts _
        have h1 : ((flowSortedPairs parseTs toNum t).map (·.1)).Pairwise (· < ·) :=
          List.pairwise_map.mpr hpw
        rw [← hmap] at h1
        exact List.pairwise_map.mp h1
      · intro r hr
        cases hsp : flowSortedPairs parseTs toNum t with
        | nil => rw [hsp] at hr; simp [withConsumption] at hr
        | cons x rest =>
          rw [hsp] at hr
          obtain ⟨tt, v⟩ := x
          simp only [withConsumption, List.mem_cons] at hr
          rcases hr with rfl | hr
          · simp
          · exact consFrom_nonneg v rest r hr
      · intro r hr
        cases hsp : flowSortedPairs parseTs toNum t with
        | nil => rw [hsp] at hr; simp [withConsumption] at hr
        | cons x rest =>
          rw [hsp] at hr
          obtain ⟨tt, v⟩ := x
          simp only [withConsumption, List.head?_cons, Option.some_inj] at hr
          rw [← hr]

/-- Witness for C2 at the concrete fixture file. -/
theorem flow_series_invariants_witness :
    demoFlowOut.Pairwise (fun a b => a.timestamp < b.timestamp) ∧
    (∀ r ∈ demoFlowOut, 0 ≤ r.consumption) ∧
    (∀ r, demoFlowOut.head? = some r → r.consumption = 0) :=
  flow_series_invariants demoParseTs demoToNum demoFlowTable demoFlowOut demoFlow_ok

/-! ## Claim C3 -/

theorem consFrom_getD :
    ∀ (l : List (Int × ℚ)) (p : ℚ) (i : Nat), i < l.length →
      (consFrom p l).getD i default =
        ⟨(l.getD i (0, 0)).1, (l.getD i (0, 0)).2,
          max ((l.getD i (0, 0)).2 - (if i = 0 then p else (l.getD (i - 1) (0, 0)).2)) 0⟩ := by
  intro l
  induction l with
  | nil => intro p i hi; simp at hi
  | cons x rest ih =>
    intro p i hi
    obtain ⟨t, v⟩ := x
    cases i with
    | zero => simp [consFrom]
    | succ j =>
      simp only [consFrom, List.getD_cons_succ, Nat.succ_sub_one]
      rw [ih v j (by simpa using hi)]
      congr 1
      cases j with
      | zero => simp
      | succ k => simp

/-- C3: after the final sort, `consumption[i+1]` is the totalizer first
difference clamped below at zero, taken against the immediately preceding
retained reading (the clamp never changes the base of the next
difference); on the spec's fixture `[100, 105, 103, 110]` the derived
consumption column is `[0, 5, 0, 7]`. -/
theorem consumption_is_clamped_diff :
    (∀ (parseTs : String → Option Int) (toNum : String → Option ℚ)
       (t : RawTable) (l : List FlowReading) (i : Nat),
       loadFlowCsv parseTs toNum t = .ok l → i + 1 < l.length →
       (l.getD (i + 1) default).consumption =
         max ((l.getD (i + 1) default).totalizer - (l.getD i default).totalizer) 0) ∧
    (loadFlowCsv demoParseTs demoToNum demoFlowTable).map (List.map (·.consumption)) =
      .ok [0, 5, 0, 7] := by
  constructor
  · intro parseTs toNum t l i h hlen
    unfold loadFlowCsv at h
    split at h
    · exact absurd h (by simp)
    · split at h
      · cases h; simp at hlen
      · cases h
        cases hsp : flowSortedPairs parseTs toNum t with
        | nil => rw [hsp] at hlen; simp [withConsumption] at hlen
        | cons x rest =>
          rw [hsp] at hlen
          obtain ⟨t0, v0⟩ := x
          have hrest : i < rest.length := by
            simp only [withConsumption, List.length_cons] at hlen
            have := consFrom_map_ts v0 rest
            have hl : (consFrom v0 rest).length = rest.length := by
              simpa using congrArg List.length this
            omega
          simp only [withConsumption, List.getD_cons_succ]
          rw [consFrom_getD rest v0 i hrest]
          cases i with
          | zero =>
            simp only [if_pos rfl]
            have : (List.getD ((t0, v0) :: rest) 0 (0, 0)).2 = v0 := rfl
            simp [this]
          | succ j =>
            simp only [if_neg (Nat.succ_ne_zero j), Nat.succ_sub_one, List.getD_cons_succ]
            rw [consFrom_getD rest v0 j (Nat.lt_of_succ_lt hrest)]
  · rw [demoFlow_ok]
    rfl

/-- Witness for C3: the clamped reset `105 → 103` at the fixture's third
reading. -/
theorem consumption_is_clamped_diff_witness :
    (demoFlowOut.getD 2 default).consumption =
      max ((demoFlowOut.getD 2 default).totalizer - (demoFlowOut.getD 1 default).totalizer) 0 :=
  consumption_is_clamped_diff.1 demoParseTs demoToNum demoFlowTable demoFlowOut 1
    demoFlow_ok (by decide)

/-! ## Claims C5 and C10 -/

theorem inRangeB_iff (r : QualityReading) :
    inRangeB r = true ↔
      ∃ v mn mx, r.value = some v ∧ r.safeMin = some mn ∧ r.safeMax = some mx ∧
        mn ≤ v ∧ v ≤ mx := by
  unfold inRangeB nfLe
  obtain ⟨ts, p, v, mn, mx⟩ := r
  cases v <;> cases mn <;> cases mx <;> simp

theorem inRangeB_of_none_bound (r : QualityReading)
    (h : r.safeMin = none ∨ r.safeMax = none) : inRangeB r = false := by
  unfold inRangeB nfLe
  obtain ⟨ts, p, v, mn, mx⟩ := r
  rcases h with h | h <;> simp at h <;> subst h <;> cases v <;> simp

theorem inRangeB_of_none_value (r : QualityReading)
    (h : r.value = none) : inRangeB r = false := by
  unfold inRangeB nfLe
  obtain ⟨ts, p, v, mn, mx⟩ := r
  simp at h
  subst h
  cases mn <;> simp

/-- Membership characterization of the compliance output rows. -/
theorem mem_qualityDailyCompliance (q : List QualityReading) (r : QualityReading)
    (hr : r ∈ q) :
    complianceRow q (r.parameter, dateOf r.timestamp) ∈ qualityDailyCompliance q := by
  unfold qualityDailyCompliance
  apply List.mem_map_of_mem
  have h1 : (r.parameter, dateOf r.timestamp) ∈
      q.map (fun x => (x.parameter, dateOf x.timestamp)) :=
    List.mem_map_of_mem _ hr
  have h2 : (r.parameter, dateOf r.timestamp) ∈
      dedupByKey id (q.map (fun x => (x.parameter, dateOf x.timestamp))) :=
    (mem_dedupById _ [] _).mpr ⟨h1, by simp⟩
  exact (List.perm_insertionSort qcKeyLe _).mem_iff.mpr h2

/-- C5: a reading is classified in-range iff its value lies inclusively
between its (non-null) bounds; a null bound is never in-range; the group's
breach count is exactly the number of its readings not in-range. -/
theorem compliance_in_range_and_breach_count (q : List QualityReading) :
    (∀ r : QualityReading,
      (inRangeB r = true ↔
        ∃ v mn mx, r.value = some v ∧ r.safeMin = some mn ∧ r.safeMax = some mx ∧
          mn ≤ v ∧ v ≤ mx)) ∧
    (∀ r : QualityReading, (r.safeMin = none ∨ r.safeMax = none) → inRangeB r = false) ∧
    (∀ row ∈ qualityDailyCompliance q,
      row.breaches =
        (q.filter (fun r => decide (r.parameter = row.parameter) &&
          decide (dateOf r.timestamp = row.date) && !inRangeB r)).length) := by
  refine ⟨inRangeB_iff, inRangeB_of_none_bound, ?_⟩
  intro row hrow
  unfold qualityDailyCompliance at hrow
  obtain ⟨k, _, rfl⟩ := List.mem_map.mp hrow
  show (complianceGroup q k).countP (fun r => !inRangeB r) = _
  rw [List.countP_eq_length_filter]
  unfold complianceGroup
  rw [List.filter_filter]
  have hpp : (complianceRow q k).parameter = k.1 := rfl
  have hdd : (complianceRow q k).date = k.2 := rfl
  rw [hpp, hdd]
  congr 1
  apply List.filter_congr
  intro r _
  cases inRangeB r <;> cases decide (r.parameter = k.1) <;>
    cases decide (dateOf r.timestamp = k.2) <;> rfl

/-- A concrete in-spec reading used by the C5 witness. -/
def demoQR : QualityReading := ⟨0, "PH", some 10, some 20, some 40⟩

/-- Witness for C5: the breach-count equation instantiated at a
one-reading series (value 10, range [20, 40]). -/
theorem compliance_in_range_and_breach_count_witness :
    (complianceRow [demoQR] ("PH", dateOf 0)).breaches =
      (List.filter (fun r =>
        decide (r.parameter = (complianceRow [demoQR] ("PH", dateOf 0)).parameter) &&
        decide (dateOf r.timestamp = (complianceRow [demoQR] ("PH", dateOf 0)).date) &&
        !inRangeB r) [demoQR]).length :=
  (compliance_in_range_and_breach_count [demoQR]).2.2
    (complianceRow [demoQR] ("PH", dateOf 0))
    (mem_qualityDailyCompliance [demoQR] demoQR (List.mem_singleton.mpr rfl))

/-- C10: a reading retained with a NaN value is counted as out-of-range by
the compliance rollup: it is in its group (so it raises `readings`), it
raises the breach count, and it holds `pct_in_range` strictly below 100
instead of being excluded. -/
theorem nan_value_counted_as_breach (q : List QualityReading) (r : QualityReading)
    (hr : r ∈ q) (hv : r.value = none) :
    inRangeB r = false ∧
    ∃ row ∈ qualityDailyCompliance q,
      row.parameter = r.parameter ∧ row.date = dateOf r.timestamp ∧
      r ∈ complianceGroup q (r.parameter, dateOf r.timestamp) ∧
      row.readings = (complianceGroup q (r.parameter, dateOf r.timestamp)).length ∧
      row.breaches =
        (complianceGroup q (r.parameter, dateOf r.timestamp)).countP (fun x => !inRangeB x) ∧
      1 ≤ row.breaches ∧
      ∀ p, row.pctInRange = some p → p < 100 := by
  have hfalse := inRangeB_of_none_value r hv
  refine ⟨hfalse, complianceRow q (r.parameter, dateOf r.timestamp),
    mem_qualityDailyCompliance q r hr, rfl, rfl, ?_, rfl, rfl, ?_, ?_⟩
  · exact List.mem_filter.mpr ⟨hr, by simp⟩
  · show 1 ≤ (complianceGroup q _).countP (fun x => !inRangeB x)
    have : 0 < (complianceGroup q (r.parameter, dateOf r.timestamp)).countP
        (fun x => !inRangeB x) := by
      rw [List.countP_pos_iff]
      exact ⟨r, List.mem_filter.mpr ⟨hr, by simp⟩, by simp [hfalse]⟩
    omega
  · intro p hp
    simp only [complianceRow] at hp
    set g := complianceGroup q (r.parameter, dateOf r.timestamp) with hg
    have hrg : r ∈ g := List.mem_filter.mpr ⟨hr, by simp⟩
    have hlen : 0 < g.length := List.length_pos_of_mem hrg
    rw [if_neg (by omega)] at hp
    have hple : g.countP inRangeB + g.countP (fun a => ¬(inRangeB a = true)) = g.length := by
      exact (List.length_eq_countP_add_countP inRangeB g).symm
    have hone : 0 < g.countP (fun a => ¬(inRangeB a = true)) := by
      rw [List.countP_pos_iff]
      refine ⟨r, hrg, ?_⟩
      simp [hfalse]
    have hcp : g.countP inRangeB < g.length := by omega
    cases hp
    rw [div_lt_iff₀ (by exact_mod_cast hlen)]
    calc (100:ℚ) * g.countP inRangeB < 100 * g.length := by
          apply mul_lt_mul_of_pos_left _ (by norm_num)
          exact_mod_cast hcp
      _ = 100 * g.length := rfl

/-- Witness for C10: a singleton group holding one NaN-valued reading. -/
theorem nan_value_counted_as_breach_witness :
    inRangeB ⟨0, "PH", none, some 20, some 40⟩ = false ∧
    ∃ row ∈ qualityDailyCompliance [⟨0, "PH", none, some 20, some 40⟩],
      row.parameter = "PH" ∧ row.date = dateOf 0 ∧
      (⟨0, "PH", none, some 20, some 40⟩ : QualityReading) ∈
        complianceGroup [⟨0, "PH", none, some 20, some 40⟩] ("PH", dateOf 0) ∧
      row.readings =
        (complianceGroup [⟨0, "PH", none, some 20, some 40⟩] ("PH", dateOf 0)).length ∧
      row.breaches =
        (complianceGroup [⟨0, "PH", none, some 20, some 40⟩] ("PH", dateOf 0)).countP
          (fun x => !inRangeB x) ∧
      1 ≤ row.breaches ∧
      ∀ p, row.pctInRange = some p → p < 100 :=
  nan_value_counted_as_breach [⟨0, "PH", none, some 20, some 40⟩] _
    (List.mem_singleton.mpr rfl) rfl

/-! ## Claim C6 -/

/-- Counterexample to C6: a quality row whose value cell (`"abc"`) fails
numeric parsing is *retained* with a NaN value, not dropped. -/
theorem unparseable_value_retained :
    demoToNum (stripCommas "abc") = none ∧
    loadQualityCsv demoPyFloat demoParseTs demoLocalize demoToNum
      [["1. PH (PH), Safe Range: (20 to 40)"],
       ["Date", "Time", "Value"],
       ["01/01/2024", "10:00", "abc"]] =
      [⟨0, "PH (PH)", none, some 20, some 40⟩] := by decide

/-- C6 (amended): a data row inside a table is kept whenever its timestamp
parses, with `value` set to whatever `to_numeric` coerced — `none` (NaN)
included; value-parse failure never drops the row. -/
theorem data_row_retained_regardless_of_value (pyFloat : String → Option ℚ)
    (parseNaive : String → Option Int) (localize : Int → Option Int)
    (toNum : String → Option ℚ) (st : QState) (r : List String) (ts : Int)
    (hp : truthyParam st.currentParam = true) (ht : st.inTable = true)
    (hm : paramReMatch ((cellsOf r).getD 0 "") = none)
    (hlen : 3 ≤ (cellsOf r).length)
    (hdate : ¬(pyLower ((cellsOf r).getD 0 "") = "date" ∧
              pyLower ((cellsOf r).getD 1 "") = "time"))
    (hts : parseNaive ((cellsOf r).getD 0 "" ++ " " ++ (cellsOf r).getD 1 "") = some ts) :
    qualStep pyFloat parseNaive localize toNum st r =
      (st, [⟨localize ts, st.currentParam.getD "",
             toNum (stripCommas ((cellsOf r).getD 2 "")), st.safeMin, st.safeMax⟩]) := by
  unfold qualStep
  have hne : (cellsOf r).isEmpty = false := by
    cases hcl : cellsOf r with
    | nil => rw [hcl] at hlen; simp at hlen
    | cons c cs => simp
  simp only [hne, hm, Bool.false_eq_true, if_false]
  have hcond : (truthyParam st.currentParam && decide (3 ≤ (cellsOf r).length) &&
      decide (pyLower ((cellsOf r).getD 0 "") = "date") &&
      decide (pyLower ((cellsOf r).getD 1 "") = "time")) = false := by
    by_cases h0 : pyLower ((cellsOf r).getD 0 "") = "date"
    · have h1 : pyLower ((cellsOf r).getD 1 "") ≠ "time" := fun hc => hdate ⟨h0, hc⟩
      rw [decide_eq_false h1, Bool.and_false]
    · rw [decide_eq_false h0, Bool.and_false, Bool.false_and]
  rw [hcond]
  simp only [Bool.false_eq_true, if_false, ht, hp, Bool.and_self, if_true]
  rw [if_neg (by omega), hts]

/-- Witness for the amended C6 at a concrete in-table state and row. -/
theorem data_row_retained_regardless_of_value_witness :
    qualStep demoPyFloat demoParseTs demoLocalize demoToNum
      ⟨some "PH (PH)", some 20, some 40, true⟩ ["01/01/2024", "10:00", "abc"] =
      (⟨some "PH (PH)", some 20, some 40, true⟩,
       [⟨demoLocalize 0, "PH (PH)", demoToNum (stripCommas "abc"), some 20, some 40⟩]) :=
  data_row_retained_regardless_of_value demoPyFloat demoParseTs demoLocalize demoToNum
    ⟨some "PH (PH)", some 20, some 40, true⟩ ["01/01/2024", "10:00", "abc"] 0
    (by decide) rfl (by decide) (by decide) (by decide) (by decide)

/-! ## Claim C7 -/

/-- Counterexample to C7: after a parameter header, a two-cell
`"Date","Time"` row does *not* switch the scanner into the table — the
following data row is dropped; with a third cell present the same data row
parses. -/
theorem two_cell_table_header_ignored :
    loadQualityCsv demoPyFloat demoParseTs demoLocalize demoToNum
      [["1. PH (PH), Safe Range: (20 to 40)"],
       ["Date", "Time"],
       ["01/01/2024", "10:00", "10"]] = [] ∧
    loadQualityCsv demoPyFloat demoParseTs demoLocalize demoToNum
      [["1. PH (PH), Safe Range: (20 to 40)"],
       ["Date", "Time", "Value"],
       ["01/01/2024", "10:00", "10"]] =
      [⟨0, "PH (PH)", some 10, some 20, some 40⟩] := by decide

/-- C7 (amended): while a parameter is active, a `"Date"/"Time"` row sets
`in_table` (contributing no reading) only when it has at least three
non-empty cells; a two-cell row leaves the state untouched and contributes
nothing. -/
theorem table_header_requires_three_cells (pyFloat : String → Option ℚ)
    (parseNaive : String → Option Int) (localize : Int → Option Int)
    (toNum : String → Option ℚ) :
    (∀ (st : QState) (r : List String),
      truthyParam st.currentParam = true →
      paramReMatch ((cellsOf r).getD 0 "") = none →
      3 ≤ (cellsOf r).length →
      pyLower ((cellsOf r).getD 0 "") = "date" →
      pyLower ((cellsOf r).getD 1 "") = "time" →
      qualStep pyFloat parseNaive localize toNum st r = ({ st with inTable := true }, [])) ∧
    (∀ (st : QState) (r : List String),
      (cellsOf r).length = 2 →
      paramReMatch ((cellsOf r).getD 0 "") = none →
      qualStep pyFloat parseNaive localize toNum st r = (st, [])) := by
  constructor
  · intro st r hp hm hlen hd htm
    unfold qualStep
    have hne : (cellsOf r).isEmpty = false := by
      cases hcl : cellsOf r with
      | nil => rw [hcl] at hlen; simp at hlen
      | cons c cs => simp
    simp only [hne, hm, Bool.false_eq_true, if_false]
    rw [if_pos (by rw [hp, decide_eq_true hlen, decide_eq_true hd, decide_eq_true htm]; rfl)]
  · intro st r hlen hm
    unfold qualStep
    have hne : (cellsOf r).isEmpty = false := by
      cases hcl : cellsOf r with
      | nil => rw [hcl] at hlen; simp at hlen
      | cons c cs => simp
    simp only [hne, hm, Bool.false_eq_true, if_false]
    rw [if_neg (by rw [hlen]; simp)]
    split
    · rw [if_pos (by omega)]
    · rfl

/-- Witness for the amended C7: a three-cell header row flips `in_table`;
the same row truncated to two cells does nothing. -/
theorem table_header_requires_three_cells_witness :
    qualStep demoPyFloat demoParseTs demoLocalize demoToNum
      ⟨some "PH (PH)", some 20, some 40, false⟩ ["Date", "Time", "Value"] =
      (⟨some "PH (PH)", some 20, some 40, true⟩, []) ∧
    qualStep demoPyFloat demoParseTs demoLocalize demoToNum
      ⟨some "PH (PH)", some 20, some 40, false⟩ ["Date", "Time"] =
      (⟨some "PH (PH)", some 20, some 40, false⟩, []) :=
  ⟨(table_header_requires_three_cells demoPyFloat demoParseTs demoLocalize demoToNum).1
      ⟨some "PH (PH)", some 20, some 40, false⟩ ["Date", "Time", "Value"]
      (by decide) (by decide) (by decide) (by decide) (by decide),
   (table_header_requires_three_cells demoPyFloat demoParseTs demoLocalize demoToNum).2
      ⟨some "PH (PH)", some 20, some 40, false⟩ ["Date", "Time"]
      (by decide) (by decide)⟩

/-! ## Claim C9 -/

/-- Counterexample to C9: a two-column flow table has no recognizable
header row, yet `load_flow_csv` raises (`raw.iloc[:, 2]` is out of
bounds) instead of returning an empty typed result. -/
theorem headerless_narrow_flow_table_raises :
    (∀ r ∈ ([["a", "b"]] : List (List String)), flowIsHeader r = false) ∧
    loadFlowCsv demoParseTs demoToNum ⟨2, [["a", "b"]]⟩ =
      .error "IndexError: single positional indexer is out-of-bounds" :=
  ⟨by decide, rfl⟩

theorem qualScan_no_param (pyFloat : String → Option ℚ)
    (parseNaive : String → Option Int) (localize : Int → Option Int)
    (toNum : String → Option ℚ) :
    ∀ (rows : List (List String)) (st : QState), st.currentParam = none →
      (∀ r ∈ rows, paramReMatch ((cellsOf r).getD 0 "") = none) →
      qualScan pyFloat parseNaive localize toNum st rows = [] := by
  intro rows
  induction rows with
  | nil => intro st _ _; rfl
  | cons r rs ih =>
    intro st hst hall
    have hstep : qualStep pyFloat parseNaive localize toNum st r = (st, []) := by
      unfold qualStep
      cases hne : (cellsOf r).isEmpty
      · simp only [hne, Bool.false_eq_true, if_false, hall r (by simp)]
        rw [if_neg (by rw [hst]; simp [truthyParam]), if_neg (by rw [hst]; simp [truthyParam])]
      · simp [hne]
    unfold qualScan
    rw [hstep]
    simpa using ih st hst (fun x hx => hall x (by simp [hx]))

/-- C9 (amended): a flow table with **at least three columns** and no
header row parses to the empty typed series, and a quality table with no
parameter-header row parses to the empty typed series; the out-of-spec
case is a flow table narrower than three columns, where the column access
itself raises (see `headerless_narrow_flow_table_raises`). -/
theorem headerless_tables_yield_empty :
    (∀ (parseTs : String → Option Int) (toNum : String → Option ℚ) (t : RawTable),
      3 ≤ t.width →
      (∀ r ∈ t.rows, flowIsHeader r = false) →
      loadFlowCsv parseTs toNum t = .ok []) ∧
    (∀ (pyFloat : String → Option ℚ) (parseNaive : String → Option Int)
       (localize : Int → Option Int) (toNum : String → Option ℚ)
       (rows : List (List String)),
      (∀ r ∈ rows, paramReMatch ((cellsOf r).getD 0 "") = none) →
      loadQualityCsv pyFloat parseNaive localize toNum rows = []) := by
  constructor
  · intro parseTs toNum t hw hnone
    have hidx : headerIdxs t.rows = [] := by
      unfold headerIdxs
      rw [List.filter_eq_nil_iff]
      intro i hi
      simp only [List.mem_range] at hi
      rw [List.getD_eq_getElem _ _ hi]
      simp [hnone _ (t.rows.getElem_mem hi)]
    have hslices : flowSlices t = [] := by
      unfold flowSlices
      rw [hidx]
      rfl
    unfold loadFlowCsv
    rw [if_neg (by omega), hslices]
    rfl
  · intro pyFloat parseNaive localize toNum rows hnone
    unfold loadQualityCsv
    rw [qualScan_no_param pyFloat parseNaive localize toNum rows _ rfl hnone]
    rfl

/-- Witness for the amended C9 at concrete headerless tables. -/
theorem headerless_tables_yield_empty_witness :
    loadFlowCsv demoParseTs demoToNum ⟨3, [["x", "y", "z"]]⟩ = .ok [] ∧
    loadQualityCsv demoPyFloat demoParseTs demoLocalize demoToNum [["hello"]] = [] :=
  ⟨headerless_tables_yield_empty.1 demoParseTs demoToNum ⟨3, [["x", "y", "z"]]⟩
      (by decide) (by decide),
   headerless_tables_yield_empty.2 demoPyFloat demoParseTs demoLocalize demoToNum
      [["hello"]] (by decide)⟩

/-! ## Claim C4 -/

/-- `loadFlowFrame` refines `loadFlowCsv`: same error, same rows. -/
theorem loadFlowFrame_rows (parseTs : String → Option Int)
    (toNum : String → Option ℚ) (t : RawTable) :
    (loadFlowFrame parseTs toNum t).map FlowFrame.rows = loadFlowCsv parseTs toNum t := by
  unfold loadFlowFrame loadFlowCsv
  split
  · rfl
  · split <;> rfl

/-- A sample stand-in for `Series.corr` in concrete runs (the none-branch
claims never evaluate it). -/
def demoCorrFn : List ℚ → List (Option ℚ) → Option ℚ := fun _ _ => none

/-- Counterexample to C4, on both counts.  One flow day joined with one
humidity day gives exactly one joined row — the correlation is null but
the joined table is *not* empty as the claim requires.  And on the
object-dtype empty frame a headerless flow file parses to, the operation
raises (`flow_daily`'s `.dt` accessor) instead of returning an
empty-table/null result. -/
theorem single_joined_day_not_empty :
    (humidityVsFlowDaily demoCorrFn ⟨[⟨0, 100, 5⟩], false⟩
      [⟨0, "HUMIDITY (HUMIDITY)", some 55, some 30, some 70⟩]
      "HUMIDITY (HUMIDITY)").map (fun p => (p.1.length, p.2)) = .ok (1, none) ∧
    humidityVsFlowDaily demoCorrFn ⟨[], true⟩
      [⟨0, "HUMIDITY (HUMIDITY)", some 55, some 30, some 70⟩]
      "HUMIDITY (HUMIDITY)" =
      .error "AttributeError: Can only use .dt accessor with datetimelike values" ∧
    loadFlowFrame demoParseTs demoToNum ⟨3, [["x", "y", "z"]]⟩ = .ok ⟨[], true⟩ :=
  ⟨rfl, rfl, rfl⟩

/-- C4 (amended): on a flow frame whose `timestamp` column is not
datetimelike — the schema-only empty frame a headerless file parses to —
the operation raises `AttributeError` from `flow_daily` before any guard.
On a datetimelike flow frame it never raises, and: the correlation is
null with an empty joined table whenever the named parameter is absent;
the correlation is null whenever fewer than 2 joined days exist (the
joined table is returned as-is, possibly with one row); with at least 2
joined days and some non-NaN humidity mean it is the `Series.corr` of the
two joined columns. -/
theorem humidity_corr_null_cases (corrFn : List ℚ → List (Option ℚ) → Option ℚ)
    (flow : FlowFrame) (quality : List QualityReading) (name : String) :
    (flow.tsIsObject = true →
      humidityVsFlowDaily corrFn flow quality name =
        .error "AttributeError: Can only use .dt accessor with datetimelike values") ∧
    (flow.tsIsObject = false → humidityRows quality name = [] →
      humidityVsFlowDaily corrFn flow quality name = .ok ([], none)) ∧
    (∀ merged corr, humidityVsFlowDaily corrFn flow quality name = .ok (merged, corr) →
      (merged.length < 2 → corr = none) ∧
      (2 ≤ merged.length → (∃ m ∈ merged, m.humidity.isSome) →
        corr = corrFn (merged.map (·.totalConsumption)) (merged.map (·.humidity)))) := by
  refine ⟨?_, ?_, ?_⟩
  · intro hobj
    unfold humidityVsFlowDaily flowDaily
    rw [if_pos hobj]
  · intro hdt hfe
    unfold humidityVsFlowDaily flowDaily
    rw [if_neg (by rw [hdt]; simp)]
    show (if (humidityRows quality name).isEmpty = true then _ else _) = _
    rw [if_pos (by simp [hfe])]
  · intro merged corr heq
    unfold humidityVsFlowDaily flowDaily at heq
    cases hobj : flow.tsIsObject with
    | true =>
      rw [hobj] at heq
      simp at heq
    | false =>
      rw [hobj] at heq
      simp only [Bool.false_eq_true, if_false] at heq
      split at heq
      · rw [Except.ok.injEq, Prod.mk.injEq] at heq
        obtain ⟨hm, hc⟩ := heq
        subst hm
        subst hc
        constructor
        · intro _
          rfl
        · intro hge _
          simp at hge
      · rename_i hq
        rw [Except.ok.injEq, Prod.mk.injEq] at heq
        obtain ⟨hm, hc⟩ := heq
        subst hm
        constructor
        · intro hlt
          rw [← hc, if_neg (by rintro ⟨h2, _⟩; omega)]
        · intro hge hex
          rw [← hc, if_pos ⟨hge, by
            rw [List.any_eq_true]
            obtain ⟨m, hm2, hs⟩ := hex
            exact ⟨m, hm2, hs⟩⟩]

/-- Witness for the amended C4: the raise on the object-dtype empty
frame, and the absent-parameter null return on a datetimelike frame. -/
theorem humidity_corr_null_cases_witness :
    humidityVsFlowDaily demoCorrFn ⟨[], true⟩ []
      "HUMIDITY (HUMIDITY)" =
      .error "AttributeError: Can only use .dt accessor with datetimelike values" ∧
    humidityVsFlowDaily demoCorrFn ⟨[⟨0, 100, 5⟩], false⟩ []
      "HUMIDITY (HUMIDITY)" = .ok ([], none) :=
  ⟨(humidity_corr_null_cases demoCorrFn ⟨[], true⟩ [] "HUMIDITY (HUMIDITY)").1 rfl,
   (humidity_corr_null_cases demoCorrFn ⟨[⟨0, 100, 5⟩], false⟩ []
      "HUMIDITY (HUMIDITY)").2.1 rfl rfl⟩

/-! ## Claim C8 -/

theorem getD_of_lt {α : Type} (l : List α) (i : Nat) (d : α) (h : i < l.length) :
    l.getD i d = l[i] := by
  rw [List.getD_eq_getElem?_getD, List.getElem?_eq_getElem h]
  rfl

theorem getD_of_le {α : Type} (l : List α) (i : Nat) (d : α) (h : l.length ≤ i) :
    l.getD i d = d := by
  rw [List.getD_eq_getElem?_getD, List.getElem?_eq_none h]
  rfl

theorem mem_windowSlice {α : Type} {x : α} {l : List α} {w i : Nat}
    (h : x ∈ windowSlice l w i) : x ∈ l :=
  List.mem_of_mem_take (List.mem_of_mem_drop h)

theorem median_const (c : ℚ) (l : List ℚ) (hne : l ≠ []) (hc : ∀ x ∈ l, x = c) :
    median l = c := by
  unfold median
  have hperm := List.perm_insertionSort (fun a b : ℚ => a ≤ b) l
  have hsc : ∀ x ∈ l.insertionSort (fun a b : ℚ => a ≤ b), x = c :=
    fun x hx => hc x (hperm.mem_iff.mp hx)
  have hlen : (l.insertionSort (fun a b : ℚ => a ≤ b)).length = l.length := hperm.length_eq
  have hpos : 0 < (l.insertionSort (fun a b : ℚ => a ≤ b)).length := by
    rw [hlen]
    exact List.length_pos.mpr hne
  by_cases hodd : (l.insertionSort (fun a b : ℚ => a ≤ b)).length % 2 = 1
  · rw [if_pos hodd, getD_of_lt _ _ _ (by omega)]
    exact hsc _ (List.getElem_mem _)
  · rw [if_neg hodd, getD_of_lt _ _ _ (by omega), getD_of_lt _ _ _ (by omega),
      hsc _ (List.getElem_mem _), hsc _ (List.getElem_mem _)]
    ring

theorem consSeq_const {c : ℚ} {flow : List FlowReading}
    (hc : ∀ r ∈ flow, r.consumption = c) : ∀ x ∈ consSeq flow, x = c := by
  intro x hx
  unfold consSeq sortedFlow at hx
  obtain ⟨r, hr, rfl⟩ := List.mem_map.mp hx
  exact hc r ((List.perm_insertionSort flowTsLe flow).mem_iff.mp hr)

theorem rollMedAt_const {c : ℚ} {flow : List FlowReading}
    (hc : ∀ r ∈ flow, r.consumption = c) (w i : Nat) :
    rollMedAt w flow i = none ∨ rollMedAt w flow i = some c := by
  unfold rollMedAt rollMedAtMp
  dsimp only
  split
  · rename_i hge
    right
    congr 1
    apply median_const c
    · intro hnil
      rw [hnil] at hge
      have : (6:Nat) ≤ mpOf w := le_max_left _ _
      simp at hge
      omega
    · intro x hx
      rw [List.mem_filterMap] at hx
      obtain ⟨o, ho, hox⟩ := hx
      simp only [id_eq] at hox
      subst hox
      obtain ⟨y, hy, hyx⟩ := List.mem_map.mp (mem_windowSlice ho)
      cases hyx
      exact consSeq_const hc _ hy
  · left
    rfl

theorem devSeq_const {c : ℚ} {flow : List FlowReading}
    (hc : ∀ r ∈ flow, r.consumption = c) (w : Nat) :
    ∀ o ∈ devSeq w flow, o = none ∨ o = some 0 := by
  intro o ho
  unfold devSeq at ho
  obtain ⟨i, hi, rfl⟩ := List.mem_map.mp ho
  unfold devAt
  rcases rollMedAt_const hc w i with h | h
  · rw [h]
    left
    rfl
  · rw [h]
    right
    simp only [Option.map_some']
    have hci : consAt flow i = c := by
      rw [List.mem_range] at hi
      unfold consAt
      rw [getD_of_lt _ _ _ hi]
      exact consSeq_const hc _ (List.getElem_mem _)
    rw [hci, sub_self, abs_zero]

theorem madAt_const {c : ℚ} {flow : List FlowReading}
    (hc : ∀ r ∈ flow, r.consumption = c) (w i : Nat) :
    madAt w flow i = none ∨ madAt w flow i = some 0 := by
  unfold madAt rollMedAtMp
  dsimp only
  split
  · rename_i hge
    right
    congr 1
    apply median_const 0
    · intro hnil
      rw [hnil] at hge
      have : (6:Nat) ≤ mpOf w := le_max_left _ _
      simp at hge
      omega
    · intro x hx
      rw [List.mem_filterMap] at hx
      obtain ⟨o, ho, hox⟩ := hx
      simp only [id_eq] at hox
      subst hox
      rcases devSeq_const hc w _ (mem_windowSlice ho) with h | h
      · exact absurd h (by simp)
      · exact Option.some.inj h
  · left
    rfl

/-- The constant-history fixture: eleven 5-unit intervals. -/
def demoConstFlow : List FlowReading :=
  [⟨0, 0, 5⟩, ⟨5, 0, 5⟩, ⟨10, 0, 5⟩, ⟨15, 0, 5⟩, ⟨20, 0, 5⟩, ⟨25, 0, 5⟩,
   ⟨30, 0, 5⟩, ⟨35, 0, 5⟩, ⟨40, 0, 5⟩, ⟨45, 0, 5⟩, ⟨50, 0, 5⟩]

/-- Five constant intervals with one extreme outlier appended, inside the
warm-up of the default 24-reading window. -/
def demoOutlierFlow : List FlowReading :=
  [⟨0, 0, 5⟩, ⟨5, 0, 5⟩, ⟨10, 0, 5⟩, ⟨15, 0, 5⟩, ⟨20, 0, 5⟩, ⟨25, 0, 1000⟩]

/-- C8: a point whose rolling MAD is exactly zero is never flagged (its
threshold is NaN); a constant consumption stream never flags any anomaly;
and with the default window, five constant readings plus one extreme
outlier appended before the warm-up is satisfied flag nothing either. -/
theorem mad_zero_never_flags :
    (∀ (w : Nat) (flow : List FlowReading) (i : Nat),
      madAt w flow i = some 0 → anomalyAt w flow i = false) ∧
    (∀ (w : Nat) (c : ℚ) (flow : List FlowReading),
      (∀ r ∈ flow, r.consumption = c) →
      ∀ row ∈ flowAnomalies w flow, row.anomaly = false) ∧
    (flowAnomalies 24 demoOutlierFlow).map (·.anomaly) =
      [false, false, false, false, false, false] := by
  refine ⟨?_, ?_, by decide⟩
  · intro w flow i h
    have hrepl : madReplAt w flow i = none := by
      unfold madReplAt
      rw [h]
      simp
    have hthr : thresholdAt w flow i = none := by
      unfold thresholdAt
      rw [hrepl]
      cases rollMedAt w flow i <;> rfl
    unfold anomalyAt
    rw [hthr]
  · intro w c flow hc row hrow
    obtain ⟨i, _, rfl⟩ := List.mem_map.mp hrow
    show anomalyAt w flow i = false
    have hrepl : madReplAt w flow i = none := by
      unfold madReplAt
      rcases madAt_const hc w i with h | h <;>
        simp [h]
    have hthr : thresholdAt w flow i = none := by
      unfold thresholdAt
      rw [hrepl]
      cases rollMedAt w flow i <;> rfl
    unfold anomalyAt
    rw [hthr]

set_option maxHeartbeats 1000000 in
/-- The MAD of the constant fixture is exactly zero once the warm-up is
satisfied. -/
theorem demoConstFlow_madAt : madAt 24 demoConstFlow 10 = some 0 := by
  norm_num [madAt, rollMedAtMp, devSeq, devAt, rollMedAt, consAt, consSeq, sortedFlow,
    windowSlice, median, mpOf, demoConstFlow, flowTsLe, List.range_succ,
    List.filterMap_cons, List.insertionSort, List.orderedInsert]

/-- Witness for C8: the zero-MAD point of the constant fixture is not
flagged. -/
theorem mad_zero_never_flags_witness :
    madAt 24 demoConstFlow 10 = some 0 ∧ anomalyAt 24 demoConstFlow 10 = false :=
  ⟨demoConstFlow_madAt, mad_zero_never_flags.1 24 demoConstFlow 10 demoConstFlow_madAt⟩

end WMS
